import Mathlib

/-!
Verification of the PurdueLinkHub weekly-schedule engine.

Shallow embedding of the schedule-synthesis core found in `js/schedule.js`
(time/day parsing, conflict detection, block placement, color assignment),
together with theorems settling the specification claims about it.

Conventions of the embedding:
* JS strings are Lean `String`; an absent (`undefined`) string field is
  modelled as `""` where the source coerces with `|| ''` or truthiness tests,
  and as `Option String` where the source tests `if (x)` on a whole argument.
* JS numbers holding slot indices are `Int` (the source can produce negative
  `startSlot`); counts parsed from digit strings are `Nat`.
* Regular-expression matching in the source is embedded as explicit
  character-list scanning with the same acceptance behaviour.
-/

set_option autoImplicit false

namespace PurdueLinkHub

/-! ## Configuration (`SCHEDULE_CONFIG` in `js/schedule.js`) -/

namespace SCHEDULE_CONFIG

def startHour : Int := 7

def endHour : Int := 22

/-- The day columns rendered, Monday..Friday. -/
def daysOfWeek : List String :=
  ["Monday", "Tuesday", "Wednesday", "Thursday", "Friday"]

/-- The `dayAbbreviations` table: single-letter code per day, Thursday = 'R'.
Each JS value is a one-character string, embedded as a `Char`. -/
def dayAbbreviations : List (String × Char) :=
  [("Monday", 'M'), ("Tuesday", 'T'), ("Wednesday", 'W'), ("Thursday", 'R'),
   ("Friday", 'F'), ("Saturday", 'S'), ("Sunday", 'U')]

/-- The fixed ordered color palette. -/
def colors : List String :=
  ["#CFB991", "#6B9BD1", "#81C784", "#FFB74D", "#BA68C8",
   "#F06292", "#4DB6AC", "#FF8A65", "#9575CD", "#FFD54F"]

end SCHEDULE_CONFIG

/-! ## Data model -/

/-- One weekly meeting descriptor as consumed by `js/schedule.js`
(`meeting.DaysOfWeek`, `meeting.StartTime`, `meeting.Duration`).
`DaysOfWeek`/`StartTime` absent is modelled as `""` (the source guards with
`|| ''` / `if (!startTime)`); `Duration` is optional (`if (duration)`). -/
structure Meeting where
  DaysOfWeek : String
  StartTime : String
  Duration : Option String
  deriving DecidableEq, Repr

/-- The course data reachable from a section through `section._course`
(`Id`, `Subject.Abbreviation`, `Number`), flattened: the nested optional
chains are collapsed to plain string fields. -/
structure Course where
  Id : String
  SubjectAbbr : String
  Number : String
  deriving DecidableEq, Repr

/-- One selectable section (`section.Id`, `section._course`,
`section.Meetings`). A missing `Meetings` array is modelled as `[]`
(the source's `!section.Meetings` guard then returns the same results). -/
structure Section where
  Id : Nat
  _course : Option Course
  Meetings : List Meeting
  deriving DecidableEq, Repr

/-- The `{ startSlot, numSlots }` record returned by `parseTimeInfo`. -/
structure TimeInfo where
  startSlot : Int
  numSlots : Nat
  deriving DecidableEq, Repr

/-- One `{sections: [idA, idB], courses: [labelA, labelB]}` object pushed by
`detectAllConflicts`. -/
structure ConflictPair where
  sections : List Nat
  courses : List String
  deriving DecidableEq, Repr

/-- The pure content of one placed meeting block produced by
`createMeetingBlock` (grid position, size, color, conflict flag);
the DOM node construction itself is presentation glue. -/
structure PlacedBlock where
  dayIndex : Nat
  startSlot : Int
  numSlots : Nat
  color : String
  conflict : Bool
  deriving DecidableEq, Repr

/-! ## Character-level scanning helpers (embedding the source's regexes) -/

/-- Longest run of leading decimal digits, and the rest (`\d+` greedily). -/
def spanDigits (cs : List Char) : List Char × List Char :=
  cs.span (fun c => c.isDigit)

/-- JS `parseInt` on a (nonempty) digit string. -/
def digitsToNat (ds : List Char) : Nat :=
  ds.foldl (fun n c => n * 10 + (c.toNat - 48)) 0

/-- The prefix test `/^(\d+):(\d+):(\d+)/` of `parseTimeInfo` and
`formatTime`: on success returns the first two captures (hour, minute). -/
def clockMatch (s : String) : Option (Nat × Nat) :=
  let cs := s.toList
  let (d1, r1) := spanDigits cs
  if d1 = [] then none else
  match r1 with
  | ':' :: r2 =>
    let (d2, r3) := spanDigits r2
    if d2 = [] then none else
    match r3 with
    | ':' :: r4 =>
      let (d3, _) := spanDigits r4
      if d3 = [] then none else
      some (digitsToNat d1, digitsToNat d2)
    | _ => none
  | _ => none

/-- Attempted match of `/PT(?:(\d+)H)?(?:(\d+)M)?/` anchored at the head of
`cs`: succeeds exactly when `cs` starts with `PT`, returning the two optional
captures (hours, minutes) with `0` for an absent group, as the source's
`parseInt(match[i] || 0)` does. -/
def ptMatchAt (cs : List Char) : Option (Nat × Nat) :=
  match cs with
  | 'P' :: 'T' :: rest =>
    let (dh, rh) := spanDigits rest
    let hm : Nat × List Char :=
      match rh with
      | 'H' :: r => if dh = [] then (0, rest) else (digitsToNat dh, r)
      | _ => (0, rest)
    let (dm, rm) := spanDigits hm.2
    let minutes : Nat :=
      match rm with
      | 'M' :: _ => if dm = [] then 0 else digitsToNat dm
      | _ => 0
    some (hm.1, minutes)
  | _ => none

/-- Unanchored search for `/PT(?:(\d+)H)?(?:(\d+)M)?/` (JS `String.match`
scans left to right for the first position where the pattern matches). -/
def ptSearch : List Char → Option (Nat × Nat)
  | [] => none
  | c :: rest =>
    match ptMatchAt (c :: rest) with
    | some r => some r
    | none => ptSearch rest

/-- The duration-minutes computation inside `parseTimeInfo`: default 50,
overridden by a successful `PT…H…M` match (either group optional). -/
def durationMinutes (duration : Option String) : Nat :=
  match duration with
  | none => 50
  | some d =>
    if d = "" then 50
    else
      match ptSearch d.toList with
      | none => 50
      | some (hours, minutes) => hours * 60 + minutes

/-! ## TimeCodec (`parseTimeInfo`, `parseDaysOfWeek` in `js/schedule.js`) -/

/-- Embeds `parseTimeInfo(startTime, duration)` from `js/schedule.js`: prefix-match
the clock form `HH:MM:SS`, convert to a 30-minute slot offset from
`startHour`, and take `numSlots = ceil(durationMinutes / 30)`. -/
def parseTimeInfo (startTime : String) (duration : Option String) : Option TimeInfo :=
  if startTime = "" then none
  else
    match clockMatch startTime with
    | none => none
    | some (startH, startMin) =>
      let startSlot : Int :=
        ((startH : Int) - SCHEDULE_CONFIG.startHour) * 2 + (if 30 ≤ startMin then 1 else 0)
      let numSlots : Nat := (durationMinutes duration + 29) / 30
      some ⟨startSlot, numSlots⟩

/-- The day-name table `dayMap` of `parseDaysOfWeek`. -/
def dayMap : List (String × Nat) :=
  [("Monday", 0), ("Tuesday", 1), ("Wednesday", 2), ("Thursday", 3),
   ("Friday", 4), ("Saturday", 5), ("Sunday", 6)]

/-- Embeds `dayMap.hasOwnProperty(day) ? dayMap[day] : undefined`. -/
def dayLookup (day : String) : Option Nat :=
  (dayMap.find? (fun e => e.1 == day)).map (fun e => e.2)

/-- JS `trim()` on a character list. -/
def trimChars (cs : List Char) : List Char :=
  ((cs.dropWhile Char.isWhitespace).reverse.dropWhile Char.isWhitespace).reverse

/-- JS `split(',')` on a character list. -/
def splitOnComma : List Char → List (List Char)
  | [] => [[]]
  | c :: rest =>
    if c = ',' then [] :: splitOnComma rest
    else
      match splitOnComma rest with
      | [] => [[c]]
      | g :: gs => (c :: g) :: gs

/-- Embeds `parseDaysOfWeek(daysString)` from `js/schedule.js`: the comma-separated
full-name branch, or the concatenated single-letter-code branch, then
`filter(i => i < 5)`. -/
def parseDaysOfWeek (daysString : String) : List Nat :=
  let dayIndices : List Nat :=
    if daysString.toList.contains ',' then
      ((splitOnComma daysString.toList).map (fun g => String.mk (trimChars g))).filterMap
        (fun day => dayLookup day)
    else
      SCHEDULE_CONFIG.dayAbbreviations.foldl
        (fun acc e =>
          if daysString.toList.contains e.2 then
            match dayLookup e.1 with
            | some index => if acc.contains index then acc else acc ++ [index]
            | none => acc
          else acc)
        []
  dayIndices.filter (fun i => decide (i < 5))

/-! ## ConflictDetector (`meetingsOverlap`, `sectionsConflict`,
`detectAllConflicts` in `js/schedule.js`) -/

/-- Embeds `meetingsOverlap(meeting1, meeting2)`: shared day required, then the
half-open slot-interval test `start1 < end2 && start2 < end1`. -/
def meetingsOverlap (m1 m2 : Meeting) : Bool :=
  let days1 := parseDaysOfWeek m1.DaysOfWeek
  let days2 := parseDaysOfWeek m2.DaysOfWeek
  let commonDays := days1.filter (fun day => days2.contains day)
  if commonDays.length = 0 then false
  else
    match parseTimeInfo m1.StartTime m1.Duration, parseTimeInfo m2.StartTime m2.Duration with
    | some time1, some time2 =>
      let end1 := time1.startSlot + (time1.numSlots : Int)
      let end2 := time2.startSlot + (time2.numSlots : Int)
      decide (time1.startSlot < end2) && decide (time2.startSlot < end1)
    | _, _ => false

/-- Embeds `sectionsConflict(section1, section2)`: some meeting of one overlaps some
meeting of the other (short-circuiting double loop). -/
def sectionsConflict (s1 s2 : Section) : Bool :=
  s1.Meetings.any (fun m1 => s2.Meetings.any (fun m2 => meetingsOverlap m1 m2))

/-- The course label `` `${_course?.Subject?.Abbreviation} ${_course?.Number}` ``
used in the pushed conflict object (missing course interpolates the string
"undefined", as JS template literals do). -/
def courseLabel (s : Section) : String :=
  match s._course with
  | some c => c.SubjectAbbr ++ " " ++ c.Number
  | none => "undefined undefined"

/-- The conflict object pushed for the pair `(sections[i], sections[j])`. -/
def mkConflict (s t : Section) : ConflictPair :=
  ⟨[s.Id, t.Id], [courseLabel s, courseLabel t]⟩

/-- The `i < j` double loop of `detectAllConflicts`, in push order: for the
head section, one entry per later section that conflicts with it, then the
pairs among the rest. -/
def conflictsGo : List Section → List ConflictPair
  | [] => []
  | s :: rest =>
    ((rest.filter (fun t => sectionsConflict s t)).map (fun t => mkConflict s t))
      ++ conflictsGo rest

/-- Embeds `detectAllConflicts(sections)` from `js/schedule.js` (its warning-banner
side effect is presentation glue and not part of the returned value). -/
def detectAllConflicts (sections : List Section) : List ConflictPair :=
  conflictsGo sections

/-! ## GridLayoutEngine (`createMeetingBlock` in `js/schedule.js`) -/

/-- Embeds `createMeetingBlock(meeting, section, color, dayIndex)` reduced to its
pure placement content: `null` when the time is unparsable or `startSlot`
falls outside `[0, (endHour - startHour) * 2)`; otherwise a block positioned
at `(dayIndex, startSlot, numSlots)` with the section's color and conflict
flag (`scheduleState.conflicts` is passed explicitly). -/
def createMeetingBlock (conflicts : List ConflictPair) (meeting : Meeting)
    (sect : Section) (color : String) (dayIndex : Nat) : Option PlacedBlock :=
  match parseTimeInfo meeting.StartTime meeting.Duration with
  | none => none
  | some timeInfo =>
    if timeInfo.startSlot < 0 ∨
        (SCHEDULE_CONFIG.endHour - SCHEDULE_CONFIG.startHour) * 2 ≤ timeInfo.startSlot then
      none
    else
      let hasConflict := conflicts.any (fun c => c.sections.contains sect.Id)
      some ⟨dayIndex, timeInfo.startSlot, timeInfo.numSlots, color, hasConflict⟩

/-! ## ColorAssigner (`assignCourseColors` in `js/schedule.js`) -/

/-- The `scheduleState.colorMap` state: a JS `Map` in insertion order, embedded as an
association list (new keys are appended; lookup takes the first hit). -/
abbrev ColorMap : Type := List (String × String)

/-- Embeds `colorMap.has(courseId)`. -/
def hasKey (m : ColorMap) (id : String) : Bool :=
  m.any (fun e => e.1 == id)

/-- Embeds `colorMap.get(courseId)` (`none` for a miss). -/
def lookupColor (m : ColorMap) (id : String) : Option String :=
  (m.find? (fun e => e.1 == id)).map (fun e => e.2)

/-- The `uniqueCourses` set of `assignCourseColors`: truthy `_course?.Id`
values of the sections in order, first occurrence kept (JS `Set` semantics). -/
def uniqueCourses (sections : List Section) : List String :=
  sections.foldl
    (fun acc s =>
      match s._course with
      | some c => if c.Id = "" then acc else if acc.contains c.Id then acc else acc ++ [c.Id]
      | none => acc)
    []

/-- The `forEach` loop of `assignCourseColors`: skip ids already in the map,
otherwise append `colors[colorIndex % colors.length]` and bump `colorIndex`
(which starts at `0` on every call). -/
def assignLoop : List String → ColorMap → Nat → ColorMap
  | [], m, _ => m
  | id :: rest, m, colorIndex =>
    if hasKey m id then assignLoop rest m colorIndex
    else
      assignLoop rest
        (m ++ ([(id, SCHEDULE_CONFIG.colors.getD (colorIndex % SCHEDULE_CONFIG.colors.length) "#999")] : ColorMap))
        (colorIndex + 1)

/-- Embeds `assignCourseColors(sections)` acting on an explicit `colorMap` state. -/
def assignCourseColors (sections : List Section) (colorMap : ColorMap) : ColorMap :=
  assignLoop (uniqueCourses sections) colorMap 0

/-- Specification-side description of the entries one `assignCourseColors`
call appends: the given ids in order, colored by a per-call index that starts
at `start`. -/
def withColors (start : Nat) : List String → ColorMap
  | [] => []
  | id :: rest =>
    (id, SCHEDULE_CONFIG.colors.getD (start % SCHEDULE_CONFIG.colors.length) "#999")
      :: withColors (start + 1) rest

/-! ## Concrete fixtures used by witnesses and counterexamples -/

/-- The CS 180 section of the spec's end-to-end example. -/
def csSection : Section :=
  ⟨1, some ⟨"CS180", "CS", "180"⟩, [⟨"MWF", "09:00:00", some "PT50M"⟩]⟩

/-- The MA 261 section of the spec's end-to-end example. -/
def maSection : Section :=
  ⟨2, some ⟨"MA261", "MA", "261"⟩, [⟨"MWF", "09:20:00", some "PT50M"⟩]⟩

/-- A section with two Monday-morning meetings (several meeting pairs with
`twoMeetSection2` overlap). -/
def twoMeetSection1 : Section :=
  ⟨1, some ⟨"CS180", "CS", "180"⟩,
   [⟨"MWF", "09:00:00", some "PT50M"⟩, ⟨"MWF", "09:30:00", some "PT50M"⟩]⟩

/-- A second section with two Monday-morning meetings. -/
def twoMeetSection2 : Section :=
  ⟨2, some ⟨"MA261", "MA", "261"⟩,
   [⟨"MWF", "09:00:00", some "PT50M"⟩, ⟨"MWF", "10:00:00", some "PT50M"⟩]⟩

/-! ## Theorems -/

/-- C2: on the two-section input where section 1 (CS180) meets MWF at
09:00:00 for PT50M and section 2 (MA261) meets MWF at 09:20:00 for PT50M,
`detectAllConflicts` returns exactly one conflict pair, whose section ids
are {1, 2}. -/
theorem detectAllConflicts_end_to_end :
    (detectAllConflicts [csSection, maSection]).map ConflictPair.sections = [[1, 2]] := by
  decide

/-- C7: `parseDaysOfWeek` maps the concatenated single-letter form and the
comma-separated full-name form to the same day sets: "MWF" and
"Monday, Wednesday, Friday" both give {0, 2, 4}, and "TR" gives {1, 3}. -/
theorem parseDaysOfWeek_two_forms :
    parseDaysOfWeek "MWF" = [0, 2, 4] ∧
    parseDaysOfWeek "Monday, Wednesday, Friday" = [0, 2, 4] ∧
    parseDaysOfWeek "TR" = [1, 3] := by
  decide

/-- C10: "Thursday" contains no comma, so it is routed to the case-sensitive
single-letter branch, where its capital 'T' matches Tuesday's code and its
lowercase 'r' never matches Thursday's code 'R': the result is {1}. -/
theorem parseDaysOfWeek_thursday_is_tuesday :
    parseDaysOfWeek "Thursday" = [1] := by
  decide

/-- C3 counterexample: the schedule-grid `parseTimeInfo` rejects an
absolute-timestamp start time (returns `none`) instead of producing the same
result as the equivalent bare clock string. -/
theorem parseTimeInfo_rejects_timestamp :
    parseTimeInfo "2024-01-15T09:00:00Z" (some "PT50M") = none ∧
    parseTimeInfo "09:00:00" (some "PT50M") = some ⟨4, 2⟩ := by
  decide

/-- C3 amended: `parseTimeInfo` in `js/schedule.js` accepts only the bare
"HH:MM:SS" clock form, detected by the prefix-pattern test `clockMatch`; it
returns `null` exactly when that test fails (absolute timestamps included) —
there is no fallback branch in this function. -/
theorem parseTimeInfo_none_iff_clock_fails (s : String) (d : Option String) :
    parseTimeInfo s d = none ↔ clockMatch s = none := by
  unfold parseTimeInfo
  by_cases hs : s = ""
  · subst hs
    simp [clockMatch, spanDigits, digitsToNat]
  · simp only [hs, if_false]
    cases h : clockMatch s with
    | none => simp
    | some p => simp

/-- C3 amended, witness: a concrete timestamp fails the clock test and is
rejected. -/
theorem parseTimeInfo_none_iff_clock_fails_witness :
    parseTimeInfo "2024-01-15T09:00:00Z" (some "PT50M") = none ↔
      clockMatch "2024-01-15T09:00:00Z" = none :=
  parseTimeInfo_none_iff_clock_fails "2024-01-15T09:00:00Z" (some "PT50M")

/-- C4 counterexample: `numSlots ≥ 1` fails — the duration "PT" parses to
0 minutes and `Math.ceil(0/30) = 0`, so `parseTimeInfo` produces a
`numSlots` of 0. -/
theorem parseTimeInfo_numSlots_zero :
    ¬ (∀ (s : String) (d : Option String) (t : TimeInfo),
        parseTimeInfo s d = some t → 1 ≤ t.numSlots) := by
  intro h
  have h0 := h "09:00:00" (some "PT") ⟨4, 0⟩ (by decide)
  exact absurd h0 (by decide)

/-- C4 amended: whenever `parseTimeInfo` returns a result, `numSlots ≥ 1`
holds iff the parsed duration minutes are positive (which covers an absent
duration and any duration without a "PT" match, where the 50-minute default
applies); durations parsing to 0 minutes, such as "PT" or "PT0M", yield
`numSlots = 0`. -/
theorem parseTimeInfo_numSlots_pos_iff (s : String) (d : Option String) (t : TimeInfo)
    (h : parseTimeInfo s d = some t) :
    1 ≤ t.numSlots ↔ 1 ≤ durationMinutes d := by
  unfold parseTimeInfo at h
  by_cases hs : s = ""
  · simp [hs] at h
  · simp only [hs, if_false] at h
    cases hm : clockMatch s with
    | none => rw [hm] at h; exact absurd h (by simp)
    | some p =>
      rw [hm] at h
      cases h
      show 1 ≤ (durationMinutes d + 29) / 30 ↔ 1 ≤ durationMinutes d
      omega

/-- C4 amended, witness: the default 50-minute duration gives 2 slots. -/
theorem parseTimeInfo_numSlots_pos_iff_witness :
    parseTimeInfo "09:00:00" (some "PT50M") = some ⟨4, 2⟩ ∧
    (1 ≤ (⟨4, 2⟩ : TimeInfo).numSlots ↔ 1 ≤ durationMinutes (some "PT50M")) :=
  ⟨by decide, parseTimeInfo_numSlots_pos_iff "09:00:00" (some "PT50M") ⟨4, 2⟩ (by decide)⟩

/-- C8: a meeting whose computed `startSlot` is negative or at least the
configured total slot count produces no placed block at all — the block is
dropped, never clipped. -/
theorem createMeetingBlock_drops_out_of_window (conflicts : List ConflictPair)
    (meeting : Meeting) (sect : Section) (color : String) (dayIndex : Nat) (t : TimeInfo)
    (hp : parseTimeInfo meeting.StartTime meeting.Duration = some t)
    (hout : t.startSlot < 0 ∨
      (SCHEDULE_CONFIG.endHour - SCHEDULE_CONFIG.startHour) * 2 ≤ t.startSlot) :
    createMeetingBlock conflicts meeting sect color dayIndex = none := by
  unfold createMeetingBlock
  rw [hp]
  simp [hout]

/-- C8 witness: with the display window starting at 07:00, a meeting starting
at 06:30 has `startSlot = -1` and yields no placed block. -/
theorem createMeetingBlock_drops_out_of_window_witness :
    parseTimeInfo "06:30:00" (some "PT50M") = some ⟨-1, 2⟩ ∧
    ((-1 : Int) < 0 ∨
      (SCHEDULE_CONFIG.endHour - SCHEDULE_CONFIG.startHour) * 2 ≤ (-1 : Int)) ∧
    createMeetingBlock [] ⟨"M", "06:30:00", some "PT50M"⟩ csSection "#999" 0 = none :=
  ⟨by decide, Or.inl (by decide),
    createMeetingBlock_drops_out_of_window [] ⟨"M", "06:30:00", some "PT50M"⟩ csSection
      "#999" 0 ⟨-1, 2⟩ (by decide) (Or.inl (by decide))⟩

/-! ### Color assignment: helper lemmas -/

theorem hasKey_append (m m' : ColorMap) (id : String) :
    hasKey (m ++ m') id = (hasKey m id || hasKey m' id) := by
  simp [hasKey]

theorem hasKey_withColors (start : Nat) (l : List String) (id : String) :
    hasKey (withColors start l) id = true ↔ id ∈ l := by
  induction l generalizing start with
  | nil => simp [withColors, hasKey]
  | cons x rest ih =>
    simp only [withColors, hasKey, List.any_cons, Bool.or_eq_true, beq_iff_eq,
      List.mem_cons]
    rw [show (List.any (withColors (start + 1) rest) fun e => e.1 == id) = true ↔ id ∈ rest
      from ih (start + 1)]
    constructor
    · rintro (h | h)
      · exact Or.inl h.symm
      · exact Or.inr h
    · rintro (h | h)
      · exact Or.inl h.symm
      · exact Or.inr h

theorem uniqueCourses_go_nodup (sections : List Section) (acc : List String)
    (h : acc.Nodup) :
    (sections.foldl
      (fun acc s =>
        match s._course with
        | some c => if c.Id = "" then acc else if acc.contains c.Id then acc else acc ++ [c.Id]
        | none => acc)
      acc).Nodup := by
  induction sections generalizing acc with
  | nil => exact h
  | cons s rest ih =>
    simp only [List.foldl_cons]
    cases s._course with
    | none => exact ih acc h
    | some c =>
      by_cases h1 : c.Id = ""
      · simp only [h1, if_true]
        exact ih acc h
      · simp only [h1, if_false]
        by_cases h2 : acc.contains c.Id
        · simp only [h2, if_true]
          exact ih acc h
        · simp only [h2, if_false]
          refine ih _ ?_
          have hnm : c.Id ∉ acc := by
            intro hmem
            exact h2 (List.elem_eq_true_of_mem hmem)
          simp [List.nodup_append, h, hnm]

theorem uniqueCourses_nodup (sections : List Section) : (uniqueCourses sections).Nodup :=
  uniqueCourses_go_nodup sections [] List.nodup_nil

/-- One call of the assignment loop, characterized: the ids not yet in the
map are appended in order, colored by the per-call index starting at
`colorIndex`. -/
theorem assignLoop_eq (l : List String) (m : ColorMap) (colorIndex : Nat)
    (h : l.Nodup) :
    assignLoop l m colorIndex =
      m ++ withColors colorIndex (l.filter (fun id => !hasKey m id)) := by
  induction l generalizing m colorIndex with
  | nil => simp [assignLoop, withColors]
  | cons id rest ih =>
    obtain ⟨hnm, hrest⟩ := List.nodup_cons.mp h
    by_cases hk : hasKey m id
    · rw [assignLoop, if_pos hk, ih m colorIndex hrest]
      have : (id :: rest).filter (fun x => !hasKey m x) =
          rest.filter (fun x => !hasKey m x) := by
        simp [List.filter_cons, hk]
      rw [this]
    · rw [assignLoop, if_neg hk]
      rw [ih _ (colorIndex + 1) hrest]
      have hfilter : rest.filter
            (fun x => !hasKey (m ++
              ([(id, SCHEDULE_CONFIG.colors.getD
                  (colorIndex % SCHEDULE_CONFIG.colors.length) "#999")] : ColorMap)) x) =
          rest.filter (fun x => !hasKey m x) := by
        apply List.filter_congr
        intro x hx
        have hxid : x ≠ id := fun hcontra => hnm (hcontra ▸ hx)
        rw [hasKey_append]
        have : hasKey
            ([(id, SCHEDULE_CONFIG.colors.getD
                (colorIndex % SCHEDULE_CONFIG.colors.length) "#999")] : ColorMap) x = false := by
          simp [hasKey, hxid.symm]
        rw [this, Bool.or_false]
      rw [hfilter]
      have hhead : (id :: rest).filter (fun x => !hasKey m x) =
          id :: rest.filter (fun x => !hasKey m x) := by
        simp [List.filter_cons, hk]
      rw [hhead, withColors, List.append_assoc]
      rfl

/-- C5 counterexample: across two calls in one session (map starting empty),
the second distinct courseId ever seen ("MA261", k = 1) receives palette
entry 0 ("#CFB991"), not `palette[1]` ("#6B9BD1") — the per-call
`colorIndex` restarts at 0. -/
theorem assignCourseColors_cross_call_restart :
    lookupColor
        (assignCourseColors [csSection, maSection] (assignCourseColors [csSection] []))
        "MA261" = some "#CFB991" ∧
    SCHEDULE_CONFIG.colors.getD (1 % SCHEDULE_CONFIG.colors.length) "#999" = "#6B9BD1" ∧
    ("#CFB991" : String) ≠ "#6B9BD1" := by
  refine ⟨by decide, by decide, by decide⟩

/-- C5 amended: within a single `assignCourseColors` call the courseIds not
yet in the map are assigned, in first-seen order, the palette entries indexed
by a per-call counter that restarts at 0 — so within one call on an initially
empty map the k-th distinct courseId receives `palette[k mod 10]`, but across
calls of a session the counter does not carry over. -/
theorem assignCourseColors_per_call (sections : List Section) (m : ColorMap) :
    assignCourseColors sections m =
      m ++ withColors 0 ((uniqueCourses sections).filter (fun id => !hasKey m id)) :=
  assignLoop_eq (uniqueCourses sections) m 0 (uniqueCourses_nodup sections)

/-- Every courseId of the current selection is a key of the map after one
`assignCourseColors` call. -/
theorem hasKey_assignCourseColors (sections : List Section) (m : ColorMap)
    (id : String) (hid : id ∈ uniqueCourses sections) :
    hasKey (assignCourseColors sections m) id = true := by
  rw [show assignCourseColors sections m =
      m ++ withColors 0 ((uniqueCourses sections).filter (fun x => !hasKey m x)) from
    assignLoop_eq (uniqueCourses sections) m 0 (uniqueCourses_nodup sections)]
  rw [hasKey_append, Bool.or_eq_true]
  by_cases hm : hasKey m id
  · exact Or.inl hm
  · refine Or.inr ((hasKey_withColors 0 _ id).mpr ?_)
    exact List.mem_filter.mpr ⟨hid, by simp [hm]⟩

/-- C9: calling `assignCourseColors` a second time with the accumulated map
and the same section ordering leaves the map exactly as it was — no entry is
overwritten, added, or removed. -/
theorem assignCourseColors_idempotent (sections : List Section) (m : ColorMap) :
    assignCourseColors sections (assignCourseColors sections m) =
      assignCourseColors sections m := by
  rw [show assignCourseColors sections (assignCourseColors sections m) =
      assignCourseColors sections m ++ withColors 0
        ((uniqueCourses sections).filter
          (fun x => !hasKey (assignCourseColors sections m) x)) from
    assignLoop_eq (uniqueCourses sections) _ 0 (uniqueCourses_nodup sections)]
  have hfil : (uniqueCourses sections).filter
      (fun x => !hasKey (assignCourseColors sections m) x) = [] := by
    rw [List.filter_eq_nil_iff]
    intro id hid
    simp [hasKey_assignCourseColors sections m id hid]
  rw [hfil]
  simp [withColors]

/-! ### Conflict detection: helper lemmas -/

/-- Every section id mentioned in a produced conflict pair is the id of one
of the input sections. -/
theorem conflictsGo_sections_mem (l : List Section) (p : ConflictPair)
    (hp : p ∈ conflictsGo l) : ∀ x ∈ p.sections, x ∈ l.map Section.Id := by
  induction l with
  | nil => simp [conflictsGo] at hp
  | cons s rest ih =>
    rw [conflictsGo, List.mem_append] at hp
    rcases hp with hp | hp
    · obtain ⟨t, ht, rfl⟩ := List.mem_map.mp hp
      intro x hx
      have htr : t ∈ rest := List.mem_of_mem_filter ht
      simp only [mkConflict, List.mem_cons, List.not_mem_nil, or_false] at hx
      rcases hx with hx | hx
      · simp [hx]
      · simp only [List.map_cons, List.mem_cons]
        exact Or.inr (hx ▸ List.mem_map_of_mem Section.Id htr)
    · intro x hx
      simp only [List.map_cons, List.mem_cons]
      exact Or.inr (ih hp x hx)

/-- The double loop never emits the same unordered id pair twice, provided
the input sections carry pairwise distinct ids. -/
theorem conflictsGo_pairwise (l : List Section) (h : (l.map Section.Id).Nodup) :
    (conflictsGo l).Pairwise (fun p q => ¬ p.sections.Perm q.sections) := by
  induction l with
  | nil => simp [conflictsGo]
  | cons s rest ih =>
    rw [List.map_cons, List.nodup_cons] at h
    obtain ⟨hs, hrest⟩ := h
    rw [conflictsGo, List.pairwise_append]
    refine ⟨?_, ih hrest, ?_⟩
    · rw [List.pairwise_map]
      have hpw : rest.Pairwise (fun a b => a.Id ≠ b.Id) := List.pairwise_map.mp hrest
      refine (hpw.filter (fun t => sectionsConflict s t)).imp ?_
      intro a b hab hperm
      simp only [mkConflict] at hperm
      have h2 := List.perm_singleton.mp hperm.cons_inv
      injection h2 with h3 _
      exact hab h3
    · intro p hp q hq hperm
      obtain ⟨t, ht, rfl⟩ := List.mem_map.mp hp
      have hsid : s.Id ∈ (mkConflict s t).sections := by simp [mkConflict]
      exact hs (conflictsGo_sections_mem rest q hq s.Id (hperm.mem_iff.mp hsid))

/-- C6: for any input whose sections have pairwise distinct ids, the conflict
list contains at most one entry per unordered pair of sections — no unordered
id pair `{a, b}` ever appears twice, however many meeting pairs overlap. -/
theorem detectAllConflicts_unordered_unique (sections : List Section)
    (h : (sections.map Section.Id).Nodup) :
    (detectAllConflicts sections).Pairwise (fun p q => ¬ p.sections.Perm q.sections) :=
  conflictsGo_pairwise sections h

/-- C6 witness: two sections with two meetings each, three of the four
meeting pairs overlapping, still produce a single `{1, 2}` entry. -/
theorem detectAllConflicts_unordered_unique_witness :
    ([twoMeetSection1, twoMeetSection2].map Section.Id).Nodup ∧
    (detectAllConflicts [twoMeetSection1, twoMeetSection2]).map ConflictPair.sections
      = [[1, 2]] ∧
    (detectAllConflicts [twoMeetSection1, twoMeetSection2]).Pairwise
      (fun p q => ¬ p.sections.Perm q.sections) :=
  ⟨by decide, by decide, detectAllConflicts_unordered_unique _ (by decide)⟩

/-- Unfolding lemma for `meetingsOverlap`: the day filter is exposed as a
list equation and the let-bound interval ends are inlined. -/
theorem meetingsOverlap_eq (m1 m2 : Meeting) :
    meetingsOverlap m1 m2 =
      if (parseDaysOfWeek m1.DaysOfWeek).filter
          (fun day => (parseDaysOfWeek m2.DaysOfWeek).contains day) = [] then false
      else
        match parseTimeInfo m1.StartTime m1.Duration,
            parseTimeInfo m2.StartTime m2.Duration with
        | some time1, some time2 =>
          decide (time1.startSlot < time2.startSlot + (time2.numSlots : Int)) &&
          decide (time2.startSlot < time1.startSlot + (time1.numSlots : Int))
        | _, _ => false := by
  unfold meetingsOverlap
  simp only [List.length_eq_zero]

/-- C1: `meetingsOverlap` returns true iff the parsed day sets share a day
AND both times parse AND the half-open slot ranges intersect
(`start1 < end2 && start2 < end1`); concretely, the same-day slot intervals
[10, 14) and [12, 16) overlap while [10, 14) and [14, 18) do not. -/
theorem meetingsOverlap_iff :
    (∀ m1 m2 : Meeting,
      meetingsOverlap m1 m2 = true ↔
        ((∃ d, d ∈ parseDaysOfWeek m1.DaysOfWeek ∧ d ∈ parseDaysOfWeek m2.DaysOfWeek) ∧
          ∃ t1 t2, parseTimeInfo m1.StartTime m1.Duration = some t1 ∧
            parseTimeInfo m2.StartTime m2.Duration = some t2 ∧
            t1.startSlot < t2.startSlot + (t2.numSlots : Int) ∧
            t2.startSlot < t1.startSlot + (t1.numSlots : Int))) ∧
    parseTimeInfo "12:00:00" (some "PT2H") = some ⟨10, 4⟩ ∧
    parseTimeInfo "13:00:00" (some "PT2H") = some ⟨12, 4⟩ ∧
    parseTimeInfo "14:00:00" (some "PT2H") = some ⟨14, 4⟩ ∧
    meetingsOverlap ⟨"M", "12:00:00", some "PT2H"⟩ ⟨"M", "13:00:00", some "PT2H"⟩ = true ∧
    meetingsOverlap ⟨"M", "12:00:00", some "PT2H"⟩ ⟨"M", "14:00:00", some "PT2H"⟩ = false := by
  refine ⟨?_, by decide, by decide, by decide, by decide, by decide⟩
  intro m1 m2
  by_cases hc : (parseDaysOfWeek m1.DaysOfWeek).filter
      (fun day => (parseDaysOfWeek m2.DaysOfWeek).contains day) = []
  · rw [meetingsOverlap_eq, if_pos hc]
    simp only [Bool.false_eq_true, false_iff]
    rintro ⟨⟨d, hd1, hd2⟩, -⟩
    rw [List.filter_eq_nil_iff] at hc
    exact hc d hd1 (by simp [hd2])
  · have hcommon : ∃ d, d ∈ parseDaysOfWeek m1.DaysOfWeek ∧
        d ∈ parseDaysOfWeek m2.DaysOfWeek := by
      obtain ⟨d, hd⟩ := List.exists_mem_of_ne_nil _ hc
      obtain ⟨hd1, hd2⟩ := List.mem_filter.mp hd
      exact ⟨d, hd1, by simpa using hd2⟩
    cases h1 : parseTimeInfo m1.StartTime m1.Duration with
    | none =>
      rw [meetingsOverlap_eq, if_neg hc, h1]
      show false = true ↔ _
      simp only [Bool.false_eq_true, false_iff]
      rintro ⟨-, t1, t2, ht1, -⟩
      cases ht1
    | some t1 =>
      cases h2 : parseTimeInfo m2.StartTime m2.Duration with
      | none =>
        rw [meetingsOverlap_eq, if_neg hc, h1, h2]
        show false = true ↔ _
        simp only [Bool.false_eq_true, false_iff]
        rintro ⟨-, t1', t2', -, ht2, -⟩
        cases ht2
      | some t2 =>
        rw [meetingsOverlap_eq, if_neg hc, h1, h2]
        show (decide (t1.startSlot < t2.startSlot + (t2.numSlots : Int)) &&
              decide (t2.startSlot < t1.startSlot + (t1.numSlots : Int))) = true ↔ _
        simp only [Bool.and_eq_true, decide_eq_true_eq, Option.some.injEq]
        constructor
        · rintro ⟨ha, hb⟩
          exact ⟨hcommon, t1, t2, rfl, rfl, ha, hb⟩
        · rintro ⟨-, t1', t2', ht1, ht2, ha, hb⟩
          subst ht1
          subst ht2
          exact ⟨ha, hb⟩

end PurdueLinkHub
